import Mathlib

/-!
Verification development for the relocation-brief web application.

The frontend logic (tag extractor, chat budget parser, quiz/chat priority
handling) is embedded directly from the JavaScript sources
(`src/frontend/components/tag_extractor.js`, `src/frontend/pages/chat.js`,
`src/frontend/pages/quiz/4.js`).  JavaScript strings are modelled as
`List Char`; the stable `Array.prototype.sort` is modelled by the stable
`List.insertionSort`.

The backend pipeline scripts (`build_monitoring_microhoods.py`,
`compute_metrics_and_tags.py`) are not part of the visible sources; only
their READMEs are.  Those components (coverage selector, percentile
tagger, city-pack merger, retrying fetch) are modelled from the spec, as
marked on each definition.
-/

namespace Reloc

/-! ### Character-level utilities shared by the frontend embeddings -/

/-- Model of the JavaScript `\s` character class (the cases relevant here). -/
def isWSChar (c : Char) : Bool :=
  c = ' ' || c = '\t' || c = '\n' || c = '\r'

/-- Model of `.replace(/\s+/g, " ")`: collapse each run of whitespace into a
single space. -/
def collapseWS : List Char → List Char
  | [] => []
  | [c] => if isWSChar c then [' '] else [c]
  | c :: d :: cs =>
    if isWSChar c && isWSChar d then collapseWS (d :: cs)
    else (if isWSChar c then ' ' else c) :: collapseWS (d :: cs)

/-- Model of `String.prototype.trim`. -/
def trimSpaces (l : List Char) : List Char :=
  ((l.dropWhile isWSChar).reverse.dropWhile isWSChar).reverse

/-- `pat` occurs as a contiguous substring, as in `String.prototype.includes`. -/
def includesSub (pat : List Char) : List Char → Bool
  | [] => pat.isEmpty
  | c :: cs => pat.isPrefixOf (c :: cs) || includesSub pat cs

/-- Model of `t.split(" ")` (split on the exact space character, keeping
empty pieces), via an accumulator for the current piece. -/
def splitAux (cur : List Char) : List Char → List (List Char)
  | [] => [cur.reverse]
  | c :: cs => if c = ' ' then cur.reverse :: splitAux [] cs else splitAux (c :: cur) cs

/-- `t.split(" ")` as used by `scoreText`. -/
def splitOnSpace (l : List Char) : List (List Char) :=
  splitAux [] l

/-! ### Tag extractor (`src/frontend/components/tag_extractor.js`) -/

/-- `norm` from `tag_extractor.js`: lowercase, normalize apostrophes, replace
every character outside `[a-z0-9\s-]` by a space, collapse whitespace, trim. -/
def norm (s : List Char) : List Char :=
  let lower := s.map Char.toLower
  let apos := lower.map (fun c => if c = '’' then '\'' else c)
  let cleaned := apos.map (fun c =>
    if ('a' ≤ c && c ≤ 'z') || c.isDigit || isWSChar c || c = '-' then c else ' ')
  trimSpaces (collapseWS cleaned)

/-- The `KEYWORDS` table from `tag_extractor.js`. -/
def KEYWORDS : List (String × List String) :=
  [("cafes_brunch", ["cafe", "cafes", "coffee", "brunch", "breakfast", "bakery", "croissant"]),
   ("restaurants", ["restaurant", "restaurants", "dining", "food scene", "food", "eat out"]),
   ("nightlife", ["nightlife", "bar", "bars", "club", "clubs", "late", "party"]),
   ("culture_museums", ["museum", "museums", "culture", "theatre", "theater", "concert", "opera"]),
   ("art_design", ["art", "design", "gallery", "architecture", "creative"]),
   ("shopping", ["shopping", "shops", "boutique", "boutiques", "retail"]),
   ("local_market_vibe", ["market", "markets", "local vibe", "neighborhood vibe", "community"]),
   ("touristy", ["tourist", "touristy", "tourists", "landmark", "sights", "sightseeing", "central sights"]),
   ("families", ["family", "kids", "child", "children", "toddler", "baby", "playground", "stroller"]),
   ("schools_strong", ["school", "schools", "kindergarten", "nursery", "preschool", "crèche", "creche", "daycare", "childcare"]),
   ("expats_international", ["expat", "international", "english", "foreign", "multicultural", "embassy"]),
   ("students", ["student", "students", "university", "campus"]),
   ("young_professionals", ["young professional", "after work", "after-work", "startup", "cowork"]),
   ("older_quiet", ["quiet", "calm", "peaceful", "sleepy", "residential", "older"]),
   ("green_parks", ["park", "parks", "green", "nature", "trees", "garden", "gardens", "outdoors"]),
   ("residential_quiet", ["quiet", "calm", "peaceful", "residential", "sleep", "noise"]),
   ("urban_dense", ["urban", "dense", "city feel", "busy", "vibrant"]),
   ("houses_more", ["house", "houses", "garden", "yard"]),
   ("apartments_more", ["apartment", "apartments", "flat", "condo"]),
   ("premium_feel", ["premium", "luxury", "upscale", "high-end", "exclusive"]),
   ("value_for_money", ["value", "affordable", "price", "budget friendly", "good deal", "more space"]),
   ("central_access", ["center", "centre", "downtown", "central", "close to center", "close to centre"]),
   ("eu_quarter_access", ["eu quarter", "european quarter", "schuman", "luxembourg station", "place lux"]),
   ("train_hubs_access", ["train", "station", "gare", "midi", "central station", "north station"]),
   ("airport_access", ["airport", "zaventem"]),
   ("metro_strong", ["metro", "subway", "underground"]),
   ("tram_strong", ["tram"]),
   ("bike_friendly", ["bike", "cycling", "bicycle"]),
   ("car_friendly", ["car", "parking", "garage", "drive"]),
   ("night_caution", ["unsafe", "safety", "at night", "night safety", "sketchy", "caution"]),
   ("busy_traffic_noise", ["traffic", "noise", "noisy", "busy road"])]

/-- Score contributed by a single keyword `w` against the normalized text `t`
with word list `parts` (the inner loop of `scoreText`). -/
def wordScore (t : List Char) (parts : List (List Char)) (w : String) : Nat :=
  let ww := norm w.toList
  if ww.isEmpty then 0
  else if ww.contains ' ' then (if includesSub ww t then 3 else 0)
  else if parts.contains ww then 2
  else if includesSub ww t then 1
  else 0

/-- `scoreText` from `tag_extractor.js`: association list of tags with a
positive keyword score, in `KEYWORDS` order (JS object insertion order). -/
def scoreText (text : String) : List (String × Nat) :=
  let t := norm text.toList
  let parts := splitOnSpace t
  KEYWORDS.filterMap (fun kw =>
    let s := (kw.2.map (wordScore t parts)).sum
    if s > 0 then some (kw.1, s) else none)

/-- A tag record; the extractor only reads the `id` field of `ALL_TAGS`
entries. -/
structure Tag where
  id : String
  title : String
deriving DecidableEq

/-- Order used by the `sort((a, b) => b[1] - a[1])` call: non-increasing
score.  `Array.prototype.sort` is stable, as is `List.insertionSort`. -/
def scoreGE (a b : String × Nat) : Prop := b.2 ≤ a.2

instance : DecidableRel scoreGE := fun a b => Nat.decLe b.2 a.2

instance : IsTotal (String × Nat) scoreGE := ⟨fun a b => le_total b.2 a.2⟩

instance : IsTrans (String × Nat) scoreGE := ⟨fun _ _ _ h1 h2 => le_trans h2 h1⟩

/-- The sorted `entries` list of `extractTagsFromText`: scores restricted to
ids present in `allTags`, sorted by descending score. -/
def extractEntries (text : String) (allTags : List Tag) : List (String × Nat) :=
  let scores := scoreText text
  let tagIds := allTags.map Tag.id
  List.insertionSort scoreGE (scores.filter (fun e => tagIds.contains e.1))

/-- The result object of `extractTagsFromText`. -/
structure ExtractResult where
  top3 : List String
  also : List String
  ranked : List String
  scores : List (String × Nat)
deriving DecidableEq

/-- `extractTagsFromText` from `tag_extractor.js`. -/
def extractTagsFromText (text : String) (allTags : List Tag) : ExtractResult :=
  let entries := extractEntries text allTags
  let ranked := entries.map Prod.fst
  { top3 := ranked.take 3
    also := (ranked.drop 3).take 4
    ranked := ranked
    scores := scoreText text }

/-! ### Budget range parser (`parseRange` in `src/frontend/pages/chat.js`) -/

/-- Model of `.replace(/eur/g, "")`. -/
def removeEur : List Char → List Char
  | 'e' :: 'u' :: 'r' :: rest => removeEur rest
  | c :: cs => c :: removeEur cs
  | [] => []

/-- Model of `.replace(/(\d),(\d)/g, "$1.$2")` ("1,2" becomes "1.2"),
scanning left to right and resuming after each match as the global regex
does. -/
def commaFix : List Char → List Char
  | a :: ',' :: b :: rest =>
    if a.isDigit && b.isDigit then a :: '.' :: b :: commaFix rest
    else a :: commaFix (',' :: b :: rest)
  | c :: cs => c :: commaFix cs
  | [] => []

/-- JavaScript word character (`\w`), used for the `\b` boundary. -/
def isWordChar (c : Char) : Bool :=
  c.isAlpha || c.isDigit || c = '_'

/-- The lookahead `(?=\d{3}\b)`: exactly three digits followed by a word
boundary. -/
def threeDigitsBoundary : List Char → Bool
  | d1 :: d2 :: d3 :: rest =>
    d1.isDigit && d2.isDigit && d3.isDigit &&
      (match rest with
       | [] => true
       | x :: _ => !(isWordChar x))
  | _ => false

/-- Model of `.replace(/(?<=\d)\s+(?=\d{3}\b)/g, "")` (removes thousand
separators such as the spaces of "1 200 000").  The fuel argument makes the
scan structurally recursive; it is initialized to the input length, which
bounds the number of steps. -/
def thousandFixF : Nat → Bool → List Char → List Char
  | 0, _, l => l
  | _ + 1, _, [] => []
  | fuel + 1, prevDigit, c :: cs =>
    if prevDigit && isWSChar c && threeDigitsBoundary (cs.dropWhile isWSChar) then
      thousandFixF fuel false (cs.dropWhile isWSChar)
    else c :: thousandFixF fuel c.isDigit cs

/-- Thousand-separator removal at full fuel. -/
def thousandFix (l : List Char) : List Char :=
  thousandFixF l.length false l

/-- The `raw` value in `parseRange`: lowercase, strip the euro sign and
"eur", collapse whitespace, trim. -/
def rangeRaw (s : String) : List Char :=
  trimSpaces (collapseWS (removeEur ((s.toList.map Char.toLower).filter (fun c => c ≠ '€'))))

/-- The `norm` value in `parseRange`: decimal commas fixed, thousand spaces
removed, trimmed. -/
def rangeNorm (s : String) : List Char :=
  trimSpaces (thousandFix (commaFix (rangeRaw s)))

/-- The optional fractional part `(?:\.\d+)?` of a number token. -/
def fracSplit (l : List Char) : List Char × List Char :=
  match l with
  | '.' :: r =>
    let f := r.takeWhile Char.isDigit
    if f.isEmpty then ([], l) else ('.' :: f, r.dropWhile Char.isDigit)
  | _ => ([], l)

/-- The optional suffix `(?:mln|million|k|m)?`, tried in the alternation
order of the token regex. -/
def suffixSplit (l : List Char) : List Char × List Char :=
  if ['m', 'l', 'n'].isPrefixOf l then (['m', 'l', 'n'], l.drop 3)
  else if ['m', 'i', 'l', 'l', 'i', 'o', 'n'].isPrefixOf l then
    (['m', 'i', 'l', 'l', 'i', 'o', 'n'], l.drop 7)
  else if ['k'].isPrefixOf l then (['k'], l.drop 1)
  else if ['m'].isPrefixOf l then (['m'], l.drop 1)
  else ([], l)

/-- Model of `norm.match(/\d+(?:\.\d+)?(?:mln|million|k|m)?/g)`: all
non-overlapping greedy matches, left to right.  Fuel (initialized to the
input length) keeps the scan structurally recursive; every recursive step
consumes at least one character. -/
def lexTokensF : Nat → List Char → List (List Char)
  | 0, _ => []
  | _ + 1, [] => []
  | fuel + 1, c :: cs =>
    if c.isDigit then
      let ds := (c :: cs).takeWhile Char.isDigit
      let r1 := (c :: cs).dropWhile Char.isDigit
      let (fr, r2) := fracSplit r1
      let (suf, r3) := suffixSplit r2
      (ds ++ fr ++ suf) :: lexTokensF fuel r3
    else lexTokensF fuel cs

/-- Token extraction at full fuel. -/
def lexTokens (l : List Char) : List (List Char) :=
  lexTokensF l.length l

/-- Numeric value of a digit string. -/
def natOfDigits (ds : List Char) : Nat :=
  ds.foldl (fun n c => n * 10 + (c.toNat - 48)) 0

/-- `parseToken` from `parseRange`: match `^(\d+(?:\.\d+)?)(k|m|mln|million)?$`,
scale by the suffix and round (`Math.round`, half up, computed exactly on
rationals as `(2*num*mul + den) / (2*den)` in integer arithmetic). -/
def parseToken (t : List Char) : Option Nat :=
  let ds := t.takeWhile Char.isDigit
  let r1 := t.dropWhile Char.isDigit
  if ds.isEmpty then none
  else
    let fracPart : Option (List Char × List Char) :=
      match r1 with
      | '.' :: r =>
        let f := r.takeWhile Char.isDigit
        if f.isEmpty then none else some (f, r.dropWhile Char.isDigit)
      | _ => some ([], r1)
    match fracPart with
    | none => none
    | some (f, r2) =>
      let mulOpt : Option Nat :=
        if r2 = [] then some 1
        else if r2 = ['k'] then some 1000
        else if r2 = ['m'] then some 1000000
        else if r2 = ['m', 'l', 'n'] then some 1000000
        else if r2 = ['m', 'i', 'l', 'l', 'i', 'o', 'n'] then some 1000000
        else none
      mulOpt.map (fun mul =>
        let den := 10 ^ f.length
        let num := natOfDigits ds * den + natOfDigits f
        (2 * num * mul + den) / (2 * den))

/-- The `vals` list of `parseRange`: the first two tokens that parse. -/
def parseRangeVals (s : String) : List Nat :=
  ((lexTokens (rangeNorm s)).filterMap parseToken).take 2

/-- `parseRange` from `chat.js`, returning the `{min, max}` pair. -/
def parseRange (s : String) : Option Nat × Option Nat :=
  let tokens := lexTokens (rangeNorm s)
  if tokens.length < 2 then (none, none)
  else
    match (tokens.filterMap parseToken).take 2 with
    | a :: b :: _ => if b < a then (some b, some a) else (some a, some b)
    | _ => (none, none)

/-! ### Priority-list operations (`src/frontend/pages/quiz/4.js` and
`src/frontend/pages/chat.js`) -/

/-- The `toggle` handler of quiz step 4 (`MAX_SELECT = 7`): deselect if
present, refuse an 8th selection, otherwise append. -/
def toggle (cur : List String) (tagId : String) : List String :=
  if cur.contains tagId then cur.filter (fun x => x ≠ tagId)
  else if 7 ≤ cur.length then cur
  else cur ++ [tagId]

/-- `applyPrioritiesFromSelection` from `chat.js` (the same code is inlined
in the `priorities_confirm` and `priorities_edit` confirm/skip branches):
top-3-first combination truncated to 7. -/
def applyPrioritiesFromSelection (selected top3 : List String) : List String :=
  let sel := selected.take 7
  let top := top3.take 3
  let finalTop := if top.isEmpty then sel.take 3 else top
  let rest := sel.filter (fun tagId => !(finalTop.contains tagId))
  (finalTop ++ rest).take 7

/-- The `selected` list built in the `priorities_freeform` step of
`chat.js`: extractor results, top3 first, truncated to 7. -/
def chatFreeformSelected (text : String) (allTags : List Tag) : List String :=
  let r := extractTagsFromText text allTags
  (r.top3 ++ r.also).take 7

/-- First-occurrence deduplication, as `[...new Set(xs)]`. -/
def dedupFirst (seen : List Nat) : List Nat → List Nat
  | [] => []
  | n :: t => if seen.contains n then dedupFirst seen t else n :: dedupFirst (n :: seen) t

/-- The `extras` step of the second chat flow in `chat.js` (lines
1356-1368): numeric picks are validated, deduplicated, capped at 4, mapped
to tag ids, filtered against the already-picked top 3, and the combination
is truncated to 7. -/
def chatExtras (tagPick : List String) (nums : List Nat) (allTags : List Tag) : List String :=
  let valid := nums.filter (fun n => decide (1 ≤ n) && decide (n ≤ allTags.length))
  let uniq := (dedupFirst [] valid).take 4
  let extra := (uniq.map (fun n => (allTags.getD (n - 1) ⟨"", ""⟩).id)).filter
    (fun i => !(tagPick.contains i))
  (tagPick ++ extra).take 7

/-! ### Coverage selector

Modelled from the spec: `build_monitoring_microhoods.py` is not among the
visible sources (only its README is), so the coverage-first greedy
selection of §4.3 is modelled here.  The coverage objective (area-union
gain or centroid dispersion) is left open by the spec, so it is an
arbitrary `gain` function of the already-selected microhoods; ties are
broken by the smallest microhood id, and selection stops when `n_max` is
reached or no candidates remain. -/

/-- Modelled from the spec: one greedy step picks the candidate with the
largest `gain`, breaking ties by stable (smallest) microhood id. -/
def pickBest (gain : List Nat → Nat → Nat) (sel : List Nat) : Nat → List Nat → Nat
  | b, [] => b
  | b, c :: cs =>
    if gain sel b < gain sel c || (gain sel c = gain sel b && c < b) then pickBest gain sel c cs
    else pickBest gain sel b cs

/-- Modelled from the spec: greedy coverage-first selection, accumulating
into `sel` (reversed), with at most `n` further picks. -/
def selectGreedy (gain : List Nat → Nat → Nat) : Nat → List Nat → List Nat → List Nat
  | 0, sel, _ => sel.reverse
  | _ + 1, sel, [] => sel.reverse
  | n + 1, sel, c :: cs =>
    let b := pickBest gain sel c cs
    selectGreedy gain n (b :: sel) ((c :: cs).erase b)

/-- Modelled from the spec: `select(commune, n_min, n_max)` returns the
ordered selection and the `missing` flag (`availability < n_min`). -/
def selectCommune (gain : List Nat → Nat → Nat) (nmin nmax : Nat) (avail : List Nat) :
    List Nat × Bool :=
  (selectGreedy gain nmax [] avail, decide (avail.length < nmin))

/-- The record of one commune in the coverage output. -/
structure CommuneOut where
  cid : Nat
  selection : List Nat
  missing : Bool
deriving DecidableEq

/-- Modelled from the spec: the coverage selector runs over every commune of
the fixed set; no commune is ever dropped. -/
def runCoverage (gain : List Nat → Nat → Nat) (nmin nmax : Nat)
    (communes : List (Nat × List Nat)) : List CommuneOut :=
  communes.map (fun p =>
    { cid := p.1
      selection := (selectCommune gain nmin nmax p.2).1
      missing := (selectCommune gain nmin nmax p.2).2 })

/-- Modelled from the spec: the missing-communes GeoJSON is the restriction
of the output to flagged communes. -/
def missingOutput (outs : List CommuneOut) : List CommuneOut :=
  outs.filter (fun r => r.missing)

/-! ### Percentile tagger

Modelled from the spec: `compute_metrics_and_tags.py` is not among the
visible sources (only `src/backend/tools/tagging/README.md` is).  Per the
README and §4.5, communes are ranked within the city by the metric of the tag
descending, ties broken by stable id ordering; `high` = top 15 %,
`medium` = top 30 % exclusive of the high band, otherwise untagged. -/

/-- Confidence tiers of a data-driven tag. -/
inductive Conf where
  | high
  | medium
deriving DecidableEq

section Tagger

variable {α : Type*} [LinearOrder α]

/-- Modelled from the spec: the descending ranking order, value first,
stable id tie-break.  `rankGE v c d` means `c` ranks at or before `d`. -/
def rankGE (v : Nat → α) (c d : Nat) : Prop :=
  v d < v c ∨ (v c = v d ∧ c ≤ d)

instance (v : Nat → α) : DecidableRel (rankGE v) := fun c d => by
  unfold rankGE
  exact inferInstance

instance (v : Nat → α) : IsTotal Nat (rankGE v) := by
  constructor
  intro a b
  rcases lt_trichotomy (v a) (v b) with h | h | h
  · exact Or.inr (Or.inl h)
  · rcases le_total a b with hab | hab
    · exact Or.inl (Or.inr ⟨h, hab⟩)
    · exact Or.inr (Or.inr ⟨h.symm, hab⟩)
  · exact Or.inl (Or.inl h)

instance (v : Nat → α) : IsTrans Nat (rankGE v) := by
  constructor
  rintro a b c (h1 | ⟨h1, h1'⟩) (h2 | ⟨h2, h2'⟩)
  · exact Or.inl (lt_trans h2 h1)
  · exact Or.inl (h2 ▸ h1)
  · exact Or.inl (h1 ▸ h2)
  · exact Or.inr ⟨h1.trans h2, le_trans h1' h2'⟩

/-- Modelled from the spec: `d` strictly precedes `c` in the descending
ranking. -/
def rankBefore (v : Nat → α) (d c : Nat) : Prop :=
  v c < v d ∨ (v d = v c ∧ d < c)

instance (v : Nat → α) (d c : Nat) : Decidable (rankBefore v d c) := by
  unfold rankBefore
  exact inferInstance

/-- Modelled from the spec: the city ranking for one metric, descending with
stable id tie-break (stable sort). -/
def ranking (v : Nat → α) (communes : List Nat) : List Nat :=
  List.insertionSort (rankGE v) communes

end Tagger

/-- Zero-based index of the first occurrence of `c`. -/
def idxIn (c : Nat) : List Nat → Nat
  | [] => 0
  | d :: t => if d = c then 0 else idxIn c t + 1

/-- Modelled from the spec: number of slots in the top-15 % (high) band of a
ranking of `n` communes; rank `r` (1-based) is high when `100 * r ≤ 15 * n`. -/
def highCut (n : Nat) : Nat := 15 * n / 100

/-- Modelled from the spec: number of slots in the top-30 % band. -/
def medCut (n : Nat) : Nat := 30 * n / 100

/-- Modelled from the spec: the confidence the percentile tagger assigns to
commune `c` for a metric `v`, within the commune set of the city. -/
def confidenceOf {α : Type*} [LinearOrder α] (v : Nat → α) (communes : List Nat) (c : Nat) :
    Option Conf :=
  if c ∈ communes then
    (let r := idxIn c (ranking v communes)
     if r < highCut communes.length then some Conf.high
     else if r < medCut communes.length then some Conf.medium
     else none)
  else none

/-- Numeric height of a confidence tier (untagged < medium < high). -/
def tierVal : Option Conf → Nat
  | none => 0
  | some Conf.medium => 1
  | some Conf.high => 2

/-! ### Full pipeline (determinism)

Modelled from the spec: the pipeline composes the coverage selector and the
percentile tagger over fixed upstream inputs; every stage is a pure
function with stable tie-breaking, so a run is a function of its inputs. -/

/-- Modelled from the spec: the upstream inputs of one pipeline run
(ingested polygon data per commune and per-tag metric tables). -/
structure PipelineInput where
  gain : List Nat → Nat → Nat
  nmin : Nat
  nmax : Nat
  communes : List (Nat × List Nat)
  tagMetrics : List (String × (Nat → ℚ))

/-- Modelled from the spec: one full pipeline run, producing the coverage
selections and the tag assignments of the output artifact. -/
def pipelineRun (inp : PipelineInput) : List CommuneOut × List (String × List (Nat × Option Conf)) :=
  let cids := inp.communes.map Prod.fst
  (runCoverage inp.gain inp.nmin inp.nmax inp.communes,
   inp.tagMetrics.map (fun tm =>
     (tm.1, cids.map (fun cid => (cid, confidenceOf tm.2 cids cid)))))

/-- A fixed sample input used to witness pipeline determinism. -/
def samplePipelineInput : PipelineInput :=
  { gain := fun _ m => m
    nmin := 8
    nmax := 12
    communes := [(1, [10, 11, 12]), (2, [20, 21])]
    tagMetrics := [("cafes_brunch", fun c => (c : ℚ))] }

/-! ### City pack merger

Modelled from the spec: the merger script is not among the visible sources.
Per §4.6 and the tagging README, it replaces coverage selections, metrics
and the six data-driven tags wholesale, preserves every other field, and
fails loudly when the commune set of the existing pack does not match the
fixed expected set. -/

/-- A tag entry of the artifact. -/
structure TagEntry where
  tid : String
  conf : Conf
deriving DecidableEq

/-- One commune section of the existing city-pack artifact. -/
structure CommunePack where
  cid : Nat
  narrative : String
  resources : List String
  tags : List TagEntry
  selection : List Nat
  metrics : List (String × ℚ)
deriving DecidableEq

/-- The city-pack artifact. -/
structure CityPack where
  communes : List CommunePack
deriving DecidableEq

/-- The six data-driven tag ids from the tagging README. -/
def DATA_TAG_IDS : List String :=
  ["cafes_brunch", "nightlife", "restaurants", "green_parks", "metro_strong", "tram_strong"]

/-- Modelled from the spec: merge one commune section — replace selection
and metrics, drop old data-driven tags and append the newly computed ones,
keep everything else. -/
def mergeCommune (newData : Nat → List Nat × List (String × ℚ) × List TagEntry)
    (old : CommunePack) : CommunePack :=
  { old with
    selection := (newData old.cid).1
    metrics := (newData old.cid).2.1
    tags := old.tags.filter (fun t => !(DATA_TAG_IDS.contains t.tid)) ++ (newData old.cid).2.2 }

/-- Modelled from the spec: merge the whole pack; a commune-set mismatch
with the fixed expected set is a hard error (`none`), nothing is written. -/
def mergePack (expected : List Nat) (old : CityPack)
    (newData : Nat → List Nat × List (String × ℚ) × List TagEntry) : Option CityPack :=
  if old.communes.map CommunePack.cid = expected then
    some ⟨old.communes.map (mergeCommune newData)⟩
  else none

/-! ### Retrying fetch (error handling)

Modelled from the spec: the Geo Source Client and Metrics Collector are not
among the visible sources.  Per §4.1, §4.4 and §7, each request is retried
a bounded number of times; a polygon page that fails all attempts aborts
the run with no artifact, while a metrics category that fails all attempts
yields a null value and the run continues. -/

/-- First successful outcome of a sequence of attempt results. -/
def firstSome {γ : Type*} : List (Option γ) → Option γ
  | [] => none
  | some x :: _ => some x
  | none :: rest => firstSome rest

/-- First successful outcome of a bounded retry sequence (`none` entries are
failed attempts; at most `maxAttempts` attempts are made). -/
def retryFetch {γ : Type*} (maxAttempts : Nat) (attempts : List (Option γ)) : Option γ :=
  firstSome (attempts.take maxAttempts)

/-- Modelled from the spec: sequential paginated polygon fetch; any page
exhausting its retries is a terminal error for the whole fetch. -/
def fetchAllPages {γ : Type*} (maxAttempts : Nat) :
    List (List (Option γ)) → Option (List γ)
  | [] => some []
  | p :: ps =>
    match retryFetch maxAttempts p with
    | none => none
    | some x => (fetchAllPages maxAttempts ps).map (fun rest => x :: rest)

/-- Modelled from the spec: the run only produces an artifact when the
polygon fetch completed; otherwise it terminates with no output. -/
def pipelineWithFetch {γ δ : Type*} (maxAttempts : Nat) (pages : List (List (Option γ)))
    (build : List γ → δ) : Option δ :=
  (fetchAllPages maxAttempts pages).map build

/-- Modelled from the spec: the value of one metrics category for one
commune — `none` when its retries are exhausted. -/
def metricValue (maxAttempts : Nat) (attempts : Nat → String → List (Option ℚ))
    (c : Nat) (cat : String) : Option ℚ :=
  retryFetch maxAttempts (attempts c cat)

/-- Modelled from the spec: the metrics collector computes every category of
every commune, degrading failed categories to `null` instead of aborting. -/
def collectMetrics (maxAttempts : Nat) (attempts : Nat → String → List (Option ℚ))
    (communes : List Nat) (cats : List String) : List (Nat × List (String × Option ℚ)) :=
  communes.map (fun c => (c, cats.map (fun k => (k, metricValue maxAttempts attempts c k))))

/-- A trivial coverage gain function, used to instantiate witnesses. -/
def constGain : List Nat → Nat → Nat := fun _ _ => 0

/-! ### Helper lemmas -/

theorem pickBest_mem (gain : List Nat → Nat → Nat) (sel : List Nat) :
    ∀ (b : Nat) (cs : List Nat), pickBest gain sel b cs ∈ b :: cs := by
  intro b cs
  induction cs generalizing b with
  | nil => simp [pickBest]
  | cons c cs ih =>
    rw [pickBest]
    split
    · have := ih c
      simp only [List.mem_cons] at this ⊢
      tauto
    · have := ih b
      simp only [List.mem_cons] at this ⊢
      tauto

theorem selectGreedy_length (gain : List Nat → Nat → Nat) :
    ∀ (n : Nat) (sel cands : List Nat),
      (selectGreedy gain n sel cands).length = sel.length + min n cands.length := by
  intro n
  induction n with
  | zero => intro sel cands; simp [selectGreedy]
  | succ n ih =>
    intro sel cands
    cases cands with
    | nil => simp [selectGreedy]
    | cons c cs =>
      rw [selectGreedy, ih]
      rw [List.length_erase_of_mem (pickBest_mem gain sel c cs)]
      simp [Nat.succ_min_succ]
      omega

theorem selectGreedy_perm (gain : List Nat → Nat → Nat) :
    ∀ (n : Nat) (sel cands : List Nat), cands.length ≤ n →
      List.Perm (selectGreedy gain n sel cands) (sel.reverse ++ cands) := by
  intro n
  induction n with
  | zero =>
    intro sel cands h
    have : cands = [] := List.eq_nil_of_length_eq_zero (Nat.le_zero.mp h)
    subst this
    simp [selectGreedy]
  | succ n ih =>
    intro sel cands h
    cases cands with
    | nil => simp [selectGreedy]
    | cons c cs =>
      rw [selectGreedy]
      have hb : pickBest gain sel c cs ∈ c :: cs := pickBest_mem gain sel c cs
      have hlen : ((c :: cs).erase (pickBest gain sel c cs)).length ≤ n := by
        rw [List.length_erase_of_mem hb]
        simpa using Nat.le_of_succ_le_succ h
      refine (ih _ _ hlen).trans ?_
      rw [List.reverse_cons, List.append_assoc]
      exact List.Perm.append_left sel.reverse (List.perm_cons_erase hb).symm

/-! ### Claim theorems -/

/-- C1: for every commune of the fixed set and every run of the Coverage
Selector with parameters `n_min ≤ n_max`, the selected microhood list
satisfies `min n_min available ≤ |selected| ≤ n_max`. -/
theorem c1_coverage_selection_size (gain : List Nat → Nat → Nat) (nmin nmax : Nat)
    (communes : List (Nat × List Nat)) (cid : Nat) (avail : List Nat)
    (hmm : nmin ≤ nmax) (hmem : (cid, avail) ∈ communes) :
    ∃ r ∈ runCoverage gain nmin nmax communes,
      r.cid = cid ∧ min nmin avail.length ≤ r.selection.length ∧
        r.selection.length ≤ nmax := by
  refine ⟨_, List.mem_map.mpr ⟨(cid, avail), hmem, rfl⟩, rfl, ?_, ?_⟩
  · show min nmin avail.length ≤ (selectGreedy gain nmax [] avail).length
    rw [selectGreedy_length]
    simp only [List.length_nil, Nat.zero_add]
    omega
  · show (selectGreedy gain nmax [] avail).length ≤ nmax
    rw [selectGreedy_length]
    simp only [List.length_nil, Nat.zero_add]
    omega

/-- Witness for C1 at a concrete run. -/
theorem c1_coverage_selection_size_witness :
    8 ≤ 12 ∧
      ∃ r ∈ runCoverage constGain 8 12 [(1, [10, 20, 30])],
        r.cid = 1 ∧ min 8 ([10, 20, 30] : List Nat).length ≤ r.selection.length ∧
          r.selection.length ≤ 12 :=
  ⟨by decide,
    c1_coverage_selection_size constGain 8 12 [(1, [10, 20, 30])] 1 [10, 20, 30]
      (by decide) (by decide)⟩

/-- C5: a commune is flagged `missing` iff `available < n_min`; a flagged
commune still appears in the main output with all its available microhoods
selected (empty when none are available), it appears in the
missing-communes output, and the commune itself is never dropped. -/
theorem c5_missing_communes (gain : List Nat → Nat → Nat) (nmin nmax : Nat)
    (communes : List (Nat × List Nat)) (cid : Nat) (avail : List Nat)
    (hmm : nmin ≤ nmax) (hmem : (cid, avail) ∈ communes) :
    ∃ r ∈ runCoverage gain nmin nmax communes,
      r.cid = cid ∧
        (r.missing = true ↔ avail.length < nmin) ∧
        (avail.length < nmin → List.Perm r.selection avail) ∧
        (avail = [] → r.selection = []) ∧
        (r.missing = true → r ∈ missingOutput (runCoverage gain nmin nmax communes)) := by
  refine ⟨_, List.mem_map.mpr ⟨(cid, avail), hmem, rfl⟩, rfl, ?_, ?_, ?_, ?_⟩
  · show decide (avail.length < nmin) = true ↔ avail.length < nmin
    exact decide_eq_true_iff
  · intro hshort
    show List.Perm (selectGreedy gain nmax [] avail) avail
    have := selectGreedy_perm gain nmax [] avail (by omega)
    simpa using this
  · rintro rfl
    show selectGreedy gain nmax [] [] = []
    cases nmax <;> simp [selectGreedy]
  · intro hmiss
    exact List.mem_filter.mpr ⟨List.mem_map.mpr ⟨(cid, avail), hmem, rfl⟩, hmiss⟩

/-- Witness for C5 at a concrete run (5 available microhoods, `n_min = 8`). -/
theorem c5_missing_communes_witness :
    8 ≤ 12 ∧
      ∃ r ∈ runCoverage constGain 8 12 [(7, [1, 2, 3, 4, 5])],
        r.cid = 7 ∧
          (r.missing = true ↔ ([1, 2, 3, 4, 5] : List Nat).length < 8) ∧
          (([1, 2, 3, 4, 5] : List Nat).length < 8 → List.Perm r.selection [1, 2, 3, 4, 5]) ∧
          (([1, 2, 3, 4, 5] : List Nat) = [] → r.selection = []) ∧
          (r.missing = true → r ∈ missingOutput (runCoverage constGain 8 12 [(7, [1, 2, 3, 4, 5])])) :=
  ⟨by decide,
    c5_missing_communes constGain 8 12 [(7, [1, 2, 3, 4, 5])] 7 [1, 2, 3, 4, 5]
      (by decide) (by decide)⟩

/-- C3: running the pipeline twice on identical upstream inputs produces
identical coverage selections and tag assignments. -/
theorem c3_pipeline_deterministic (i1 i2 : PipelineInput) (h : i1 = i2) :
    pipelineRun i1 = pipelineRun i2 := by
  rw [h]

/-- Witness for C3 at a concrete input. -/
theorem c3_pipeline_deterministic_witness :
    pipelineRun samplePipelineInput = pipelineRun samplePipelineInput :=
  c3_pipeline_deterministic samplePipelineInput samplePipelineInput rfl

/-- C10: every operation that modifies the priorities list preserves
`|priorities| ≤ 7`: the quiz toggle refuses an 8th selection, and each
chat-side application (freeform extraction, confirm / edit-confirm / skip,
extras) truncates its combined list to at most 7 elements. -/
theorem c10_priorities_invariant (cur sel top tagPick : List String) (tagId : String)
    (nums : List Nat) (text : String) (allTags : List Tag) (h : cur.length ≤ 7) :
    (toggle cur tagId).length ≤ 7 ∧
      (applyPrioritiesFromSelection sel top).length ≤ 7 ∧
      (chatExtras tagPick nums allTags).length ≤ 7 ∧
      (chatFreeformSelected text allTags).length ≤ 7 := by
  refine ⟨?_, ?_, ?_, ?_⟩
  · unfold toggle
    split
    · exact le_trans (List.length_filter_le _ _) h
    · split
      · exact h
      · rw [List.length_append]
        simp only [List.length_cons, List.length_nil]
        omega
  · unfold applyPrioritiesFromSelection
    rw [List.length_take]
    omega
  · unfold chatExtras
    rw [List.length_take]
    omega
  · unfold chatFreeformSelected
    rw [List.length_take]
    omega

/-- Witness for C10 at concrete lists. -/
theorem c10_priorities_invariant_witness :
    (["a", "b", "c", "d", "e", "f", "g"] : List String).length ≤ 7 ∧
      (toggle ["a", "b", "c", "d", "e", "f", "g"] "h").length ≤ 7 ∧
      (applyPrioritiesFromSelection ["a", "b", "c", "d", "e", "f", "g", "h"] ["x", "y"]).length ≤ 7 ∧
      (chatExtras ["x", "y", "z"] [1, 2, 3, 4, 5] [⟨"green_parks", "Parks"⟩]).length ≤ 7 ∧
      (chatFreeformSelected "quiet green parks and cafes" [⟨"green_parks", "Parks"⟩]).length ≤ 7 :=
  ⟨by decide,
    c10_priorities_invariant ["a", "b", "c", "d", "e", "f", "g"]
      ["a", "b", "c", "d", "e", "f", "g", "h"] ["x", "y"] ["x", "y", "z"] "h" [1, 2, 3, 4, 5]
      "quiet green parks and cafes" [⟨"green_parks", "Parks"⟩] (by decide)⟩

section TaggerLemmas

variable {α : Type*} [LinearOrder α]

theorem rank_not_before (v : Nat → α) {a d : Nat} (h : rankGE v a d) :
    ¬ rankBefore v d a := by
  unfold rankGE at h
  unfold rankBefore
  rcases h with h | ⟨h1, h2⟩
  · rintro (h3 | ⟨h3, h4⟩)
    · exact lt_asymm h h3
    · rw [h3] at h
      exact lt_irrefl _ h
  · rintro (h3 | ⟨h3, h4⟩)
    · rw [h1] at h3
      exact lt_irrefl _ h3
    · omega

theorem rank_strict (v : Nat → α) {a c : Nat} (h : rankGE v a c) (hne : a ≠ c) :
    rankBefore v a c := by
  unfold rankGE at h
  unfold rankBefore
  rcases h with h | ⟨h1, h2⟩
  · exact Or.inl h
  · exact Or.inr ⟨h1, lt_of_le_of_ne h2 hne⟩

theorem idx_sorted (v : Nat → α) :
    ∀ (l : List Nat), l.Pairwise (rankGE v) → l.Nodup → ∀ c ∈ l,
      idxIn c l = l.countP (fun d => decide (rankBefore v d c)) := by
  intro l
  induction l with
  | nil =>
    intro _ _ c hc
    cases hc
  | cons a t ih =>
    intro hp hnd c hc
    have hpa : ∀ d ∈ t, rankGE v a d := (List.pairwise_cons.mp hp).1
    have hpt : t.Pairwise (rankGE v) := (List.pairwise_cons.mp hp).2
    have hnt : t.Nodup := (List.nodup_cons.mp hnd).2
    rw [List.countP_cons]
    by_cases hac : a = c
    · subst hac
      have h0 : t.countP (fun d => decide (rankBefore v d a)) = 0 := by
        rw [List.countP_eq_zero]
        intro d hd
        simp only [decide_eq_true_eq]
        exact rank_not_before v (hpa d hd)
      have h1 : ¬ rankBefore v a a := by
        unfold rankBefore
        rintro (h | ⟨_, h⟩) <;> exact lt_irrefl _ h
      simp [idxIn, h0, h1]
    · have hct : c ∈ t := by
        rcases List.mem_cons.mp hc with h | h
        · exact absurd h.symm hac
        · exact h
      have hbefore : rankBefore v a c := rank_strict v (hpa c hct) hac
      rw [idxIn, if_neg hac, ih hpt hnt c hct]
      simp [hbefore]

theorem idx_ranking (v : Nat → α) (communes : List Nat) (hnd : communes.Nodup)
    {c : Nat} (hc : c ∈ communes) :
    idxIn c (ranking v communes) =
      communes.countP (fun d => decide (rankBefore v d c)) := by
  have hperm : List.Perm (List.insertionSort (rankGE v) communes) communes :=
    List.perm_insertionSort (rankGE v) communes
  have hp : (ranking v communes).Pairwise (rankGE v) :=
    List.sorted_insertionSort (rankGE v) communes
  have hnd2 : (ranking v communes).Nodup := hperm.nodup_iff.mpr hnd
  have hc2 : c ∈ ranking v communes := hperm.mem_iff.mpr hc
  rw [idx_sorted v (ranking v communes) hp hnd2 c hc2]
  exact hperm.countP_eq _

theorem cut_iff (q n k : Nat) : k < q * n / 100 ↔ 100 * (k + 1) ≤ q * n := by
  rw [Nat.lt_iff_add_one_le, Nat.le_div_iff_mul_le (by omega : 0 < 100)]
  omega

end TaggerLemmas

/-- C2: for every tag and city, the Percentile Tagger assigns `high` exactly
when the commune is in the top 15 % of the descending city ranking on the
associated metric (1-based rank `r` with `100 r ≤ 15 n`), `medium` exactly when
it is in the top 30 % but not the top 15 %, and no tag otherwise. -/
theorem c2_percentile_bands {α : Type*} [LinearOrder α] (v : Nat → α)
    (communes : List Nat) (c : Nat) (hnd : communes.Nodup) (hc : c ∈ communes) :
    (confidenceOf v communes c = some Conf.high ↔
      100 * (communes.countP (fun d => decide (rankBefore v d c)) + 1) ≤
        15 * communes.length) ∧
    (confidenceOf v communes c = some Conf.medium ↔
      (100 * (communes.countP (fun d => decide (rankBefore v d c)) + 1) ≤
          30 * communes.length ∧
        15 * communes.length <
          100 * (communes.countP (fun d => decide (rankBefore v d c)) + 1))) ∧
    (confidenceOf v communes c = none ↔
      30 * communes.length <
        100 * (communes.countP (fun d => decide (rankBefore v d c)) + 1)) := by
  have hidx := idx_ranking v communes hnd hc
  set n := communes.length with hn
  set k := communes.countP (fun d => decide (rankBefore v d c)) with hk
  have hhigh : k < highCut n ↔ 100 * (k + 1) ≤ 15 * n := by
    unfold highCut
    exact cut_iff 15 n k
  have hmed : k < medCut n ↔ 100 * (k + 1) ≤ 30 * n := by
    unfold medCut
    exact cut_iff 30 n k
  have heq : confidenceOf v communes c =
      (if k < highCut n then some Conf.high
       else if k < medCut n then some Conf.medium
       else none) := by
    simp only [confidenceOf, if_pos hc]
    rw [hidx]
  rw [heq]
  by_cases h1 : k < highCut n
  · have ha := hhigh.mp h1
    rw [if_pos h1]
    refine ⟨iff_of_true rfl ha, iff_of_false (by simp) ?_, iff_of_false (by simp) (by omega)⟩
    rintro ⟨_, hlt⟩
    omega
  · have ha : ¬ 100 * (k + 1) ≤ 15 * n := fun hcon => h1 (hhigh.mpr hcon)
    by_cases h2 : k < medCut n
    · have hb := hmed.mp h2
      rw [if_neg h1, if_pos h2]
      exact ⟨iff_of_false (by simp) (by omega), iff_of_true rfl ⟨hb, by omega⟩,
        iff_of_false (by simp) (by omega)⟩
    · have hb : ¬ 100 * (k + 1) ≤ 30 * n := fun hcon => h2 (hmed.mpr hcon)
      rw [if_neg h1, if_neg h2]
      refine ⟨iff_of_false (by simp) (by omega), iff_of_false (by simp) ?_,
        iff_of_true rfl (by omega)⟩
      rintro ⟨hle, _⟩
      omega

/-- Witness for C2: seven communes with strictly decreasing metric values;
the first is `high`, the second `medium`, the last untagged. -/
theorem c2_percentile_bands_witness :
    ([1, 2, 3, 4, 5, 6, 7] : List Nat).Nodup ∧ (1 : Nat) ∈ [1, 2, 3, 4, 5, 6, 7] ∧
      ((confidenceOf (fun i => (10 - i : Int)) [1, 2, 3, 4, 5, 6, 7] 1 = some Conf.high ↔
        100 * (([1, 2, 3, 4, 5, 6, 7] : List Nat).countP
            (fun d => decide (rankBefore (fun i => (10 - i : Int)) d 1)) + 1) ≤
          15 * ([1, 2, 3, 4, 5, 6, 7] : List Nat).length) ∧
      (confidenceOf (fun i => (10 - i : Int)) [1, 2, 3, 4, 5, 6, 7] 1 = some Conf.medium ↔
        (100 * (([1, 2, 3, 4, 5, 6, 7] : List Nat).countP
            (fun d => decide (rankBefore (fun i => (10 - i : Int)) d 1)) + 1) ≤
          30 * ([1, 2, 3, 4, 5, 6, 7] : List Nat).length ∧
        15 * ([1, 2, 3, 4, 5, 6, 7] : List Nat).length <
          100 * (([1, 2, 3, 4, 5, 6, 7] : List Nat).countP
            (fun d => decide (rankBefore (fun i => (10 - i : Int)) d 1)) + 1))) ∧
      (confidenceOf (fun i => (10 - i : Int)) [1, 2, 3, 4, 5, 6, 7] 1 = none ↔
        30 * ([1, 2, 3, 4, 5, 6, 7] : List Nat).length <
          100 * (([1, 2, 3, 4, 5, 6, 7] : List Nat).countP
            (fun d => decide (rankBefore (fun i => (10 - i : Int)) d 1)) + 1))) :=
  ⟨by decide, by decide,
    c2_percentile_bands (fun i => (10 - i : Int)) [1, 2, 3, 4, 5, 6, 7] 1
      (by decide) (by decide)⟩

/-- C6: increasing the metric value of one commune while the values of all
other communes stay fixed never lowers the confidence tier of that commune
(untagged < medium < high). -/
theorem c6_metric_monotone {α : Type*} [LinearOrder α] (v v2 : Nat → α)
    (communes : List Nat) (c : Nat) (hnd : communes.Nodup) (hc : c ∈ communes)
    (hself : v c ≤ v2 c) (hother : ∀ d, d ≠ c → v2 d = v d) :
    tierVal (confidenceOf v communes c) ≤ tierVal (confidenceOf v2 communes c) := by
  have hidx1 := idx_ranking v communes hnd hc
  have hidx2 := idx_ranking v2 communes hnd hc
  have hcount : communes.countP (fun d => decide (rankBefore v2 d c)) ≤
      communes.countP (fun d => decide (rankBefore v d c)) := by
    apply List.countP_mono_left
    intro d hd hdec
    simp only [decide_eq_true_eq] at hdec ⊢
    by_cases hdc : d = c
    · subst hdc
      exfalso
      unfold rankBefore at hdec
      rcases hdec with h | ⟨_, h⟩ <;> exact lt_irrefl _ h
    · have hvd : v2 d = v d := hother d hdc
      unfold rankBefore at hdec ⊢
      rcases hdec with h | ⟨h1, h2⟩
      · exact Or.inl (lt_of_le_of_lt hself (hvd ▸ h))
      · rw [hvd] at h1
        rcases lt_or_eq_of_le hself with h3 | h3
        · exact Or.inl (h1 ▸ h3)
        · exact Or.inr ⟨by rw [h1, ← h3], h2⟩
  have heq1 : confidenceOf v communes c =
      (if communes.countP (fun d => decide (rankBefore v d c)) < highCut communes.length
       then some Conf.high
       else if communes.countP (fun d => decide (rankBefore v d c)) < medCut communes.length
       then some Conf.medium
       else none) := by
    simp only [confidenceOf, if_pos hc]
    rw [hidx1]
  have heq2 : confidenceOf v2 communes c =
      (if communes.countP (fun d => decide (rankBefore v2 d c)) < highCut communes.length
       then some Conf.high
       else if communes.countP (fun d => decide (rankBefore v2 d c)) < medCut communes.length
       then some Conf.medium
       else none) := by
    simp only [confidenceOf, if_pos hc]
    rw [hidx2]
  rw [heq1, heq2]
  set k1 := communes.countP (fun d => decide (rankBefore v d c))
  set k2 := communes.countP (fun d => decide (rankBefore v2 d c))
  by_cases ha : k1 < highCut communes.length
  · have hb : k2 < highCut communes.length := lt_of_le_of_lt hcount ha
    simp [ha, hb, tierVal]
  · by_cases hb : k1 < medCut communes.length
    · have h2 : k2 < medCut communes.length := lt_of_le_of_lt hcount hb
      by_cases h3 : k2 < highCut communes.length
      · simp [ha, hb, h3, tierVal]
      · simp [ha, hb, h3, h2, tierVal]
    · rw [if_neg ha, if_neg hb]
      exact Nat.zero_le _

/-- Witness for C6: raising the value of the last commune from the bottom to the
top of a three-commune city. -/
theorem c6_metric_monotone_witness :
    ([1, 2, 3] : List Nat).Nodup ∧ (3 : Nat) ∈ [1, 2, 3] ∧
      (fun i => if i = 3 then (0 : Int) else 10) 3 ≤
        (fun i => if i = 3 then (20 : Int) else 10) 3 ∧
      tierVal (confidenceOf (fun i => if i = 3 then (0 : Int) else 10) [1, 2, 3] 3) ≤
        tierVal (confidenceOf (fun i => if i = 3 then (20 : Int) else 10) [1, 2, 3] 3) :=
  ⟨by decide, by decide, by decide,
    c6_metric_monotone (fun i => if i = 3 then (0 : Int) else 10)
      (fun i => if i = 3 then (20 : Int) else 10) [1, 2, 3] 3 (by decide) (by decide)
      (by decide) (fun d hd => by simp [hd])⟩

/-- C4: the merger replaces only the coverage selection, the metrics and the
data-driven tags; the id, narrative text, resource list and every tag with a
non-data-driven id of each commune section are unchanged. -/
theorem c4_merger_frame (expected : List Nat) (old : CityPack)
    (newData : Nat → List Nat × List (String × ℚ) × List TagEntry) (merged : CityPack)
    (hm : mergePack expected old newData = some merged)
    (htags : ∀ cp ∈ old.communes, ∀ t ∈ (newData cp.cid).2.2, t.tid ∈ DATA_TAG_IDS) :
    ∀ cp ∈ old.communes, ∃ cp2 ∈ merged.communes,
      cp2.cid = cp.cid ∧
        cp2.narrative = cp.narrative ∧
        cp2.resources = cp.resources ∧
        cp2.tags.filter (fun t => !(DATA_TAG_IDS.contains t.tid)) =
          cp.tags.filter (fun t => !(DATA_TAG_IDS.contains t.tid)) ∧
        cp2.selection = (newData cp.cid).1 ∧
        cp2.metrics = (newData cp.cid).2.1 ∧
        cp2.tags.filter (fun t => DATA_TAG_IDS.contains t.tid) = (newData cp.cid).2.2 := by
  intro cp hcp
  have hmerged : merged = ⟨old.communes.map (mergeCommune newData)⟩ := by
    unfold mergePack at hm
    split at hm
    · exact (Option.some.inj hm).symm
    · cases hm
  have hnewmem : ∀ t ∈ (newData cp.cid).2.2, DATA_TAG_IDS.contains t.tid = true := by
    intro t ht
    exact List.elem_eq_true_of_mem (htags cp hcp t ht)
  refine ⟨mergeCommune newData cp, ?_, rfl, rfl, rfl, ?_, rfl, rfl, ?_⟩
  · rw [hmerged]
    exact List.mem_map_of_mem _ hcp
  · show ((cp.tags.filter (fun t => !(DATA_TAG_IDS.contains t.tid)) ++
        (newData cp.cid).2.2).filter (fun t => !(DATA_TAG_IDS.contains t.tid))) =
      cp.tags.filter (fun t => !(DATA_TAG_IDS.contains t.tid))
    rw [List.filter_append, List.filter_filter]
    have h1 : ((newData cp.cid).2.2).filter (fun t => !(DATA_TAG_IDS.contains t.tid)) = [] := by
      rw [List.filter_eq_nil_iff]
      intro t ht
      simp
      exact htags cp hcp t ht
    rw [h1, List.append_nil]
    apply List.filter_congr
    intro t _
    simp
  · show ((cp.tags.filter (fun t => !(DATA_TAG_IDS.contains t.tid)) ++
        (newData cp.cid).2.2).filter (fun t => DATA_TAG_IDS.contains t.tid)) =
      (newData cp.cid).2.2
    rw [List.filter_append, List.filter_filter]
    have h1 : cp.tags.filter
        (fun t => DATA_TAG_IDS.contains t.tid && !(DATA_TAG_IDS.contains t.tid)) = [] := by
      rw [List.filter_eq_nil_iff]
      intro t _
      simp
    have h2 : ((newData cp.cid).2.2).filter (fun t => DATA_TAG_IDS.contains t.tid) =
        (newData cp.cid).2.2 := by
      rw [List.filter_eq_self]
      exact hnewmem
    rw [h1, h2, List.nil_append]

/-- A fixed existing city pack used to witness the merger frame property. -/
def sampleOldPack : CityPack :=
  ⟨[{ cid := 1
      narrative := "curated story"
      resources := ["guide.pdf"]
      tags := [⟨"premium_feel", Conf.high⟩, ⟨"cafes_brunch", Conf.medium⟩]
      selection := [9]
      metrics := [("old_metric", (1 : ℚ))] }]⟩

/-- The per-commune replacement data used by the merger witness. -/
def sampleNewData : Nat → List Nat × List (String × ℚ) × List TagEntry :=
  fun _ => ([1, 2], [("cafes_density", (3 : ℚ))], [⟨"cafes_brunch", Conf.high⟩])

/-- The merged pack produced from `sampleOldPack` and `sampleNewData`. -/
def sampleMergedPack : CityPack :=
  ⟨[{ cid := 1
      narrative := "curated story"
      resources := ["guide.pdf"]
      tags := [⟨"premium_feel", Conf.high⟩, ⟨"cafes_brunch", Conf.high⟩]
      selection := [1, 2]
      metrics := [("cafes_density", (3 : ℚ))] }]⟩

/-- Witness for C4 at a concrete merge. -/
theorem c4_merger_frame_witness :
    mergePack [1] sampleOldPack sampleNewData = some sampleMergedPack ∧
      (∀ cp ∈ sampleOldPack.communes, ∀ t ∈ (sampleNewData cp.cid).2.2,
        t.tid ∈ DATA_TAG_IDS) ∧
      ∀ cp ∈ sampleOldPack.communes, ∃ cp2 ∈ sampleMergedPack.communes,
        cp2.cid = cp.cid ∧
          cp2.narrative = cp.narrative ∧
          cp2.resources = cp.resources ∧
          cp2.tags.filter (fun t => !(DATA_TAG_IDS.contains t.tid)) =
            cp.tags.filter (fun t => !(DATA_TAG_IDS.contains t.tid)) ∧
          cp2.selection = (sampleNewData cp.cid).1 ∧
          cp2.metrics = (sampleNewData cp.cid).2.1 ∧
          cp2.tags.filter (fun t => DATA_TAG_IDS.contains t.tid) =
            (sampleNewData cp.cid).2.2 :=
  ⟨by decide, by decide,
    c4_merger_frame [1] sampleOldPack sampleNewData sampleMergedPack (by decide) (by decide)⟩

/-- C7: exhausting retries on a polygon page terminates the run with no
artifact; exhausting retries on a single metrics category yields a null
value for that (commune, category) slot while every other slot of every
commune is still computed. -/
theorem c7_retry_exhaustion {γ δ : Type} (maxAttempts : Nat)
    (pages : List (List (Option γ))) (build : List γ → δ)
    (attempts : Nat → String → List (Option ℚ)) (communes : List Nat) (cats : List String)
    (c : Nat) (cat : String)
    (hpage : ∃ p ∈ pages, retryFetch maxAttempts p = none)
    (hcat : retryFetch maxAttempts (attempts c cat) = none)
    (hc : c ∈ communes) (hk : cat ∈ cats) :
    pipelineWithFetch maxAttempts pages build = none ∧
      (∃ row ∈ collectMetrics maxAttempts attempts communes cats,
        row.1 = c ∧ (cat, (none : Option ℚ)) ∈ row.2) ∧
      (∀ c2 ∈ communes, ∃ row ∈ collectMetrics maxAttempts attempts communes cats,
        row.1 = c2 ∧ ∀ k ∈ cats, (k, metricValue maxAttempts attempts c2 k) ∈ row.2) := by
  refine ⟨?_, ?_, ?_⟩
  · have hfetch : fetchAllPages maxAttempts pages = none := by
      induction pages with
      | nil =>
        rcases hpage with ⟨p, hp, _⟩
        cases hp
      | cons q qs ih =>
        rcases hpage with ⟨p, hp, hfail⟩
        rcases List.mem_cons.mp hp with rfl | hp2
        · simp [fetchAllPages, hfail]
        · unfold fetchAllPages
          cases hq : retryFetch maxAttempts q with
          | none => rfl
          | some x =>
            rw [ih ⟨p, hp2, hfail⟩]
            rfl
    unfold pipelineWithFetch
    rw [hfetch]
    rfl
  · refine ⟨(c, cats.map (fun k => (k, metricValue maxAttempts attempts c k))),
      List.mem_map.mpr ⟨c, hc, rfl⟩, rfl, ?_⟩
    have : (cat, metricValue maxAttempts attempts c cat) ∈
        cats.map (fun k => (k, metricValue maxAttempts attempts c k)) :=
      List.mem_map_of_mem _ hk
    rw [metricValue, hcat] at this
    exact this
  · intro c2 hc2
    refine ⟨(c2, cats.map (fun k => (k, metricValue maxAttempts attempts c2 k))),
      List.mem_map.mpr ⟨c2, hc2, rfl⟩, rfl, ?_⟩
    intro k hkmem
    exact List.mem_map_of_mem _ hkmem

/-- Witness for C7: two pages where the second exhausts both attempts, and a
metrics run with one failing category. -/
theorem c7_retry_exhaustion_witness :
    (∃ p ∈ [[some 5], [none, none]], retryFetch 2 p = (none : Option Nat)) ∧
      retryFetch 2 ((fun _ _ => [none, none]) 1 "parks_share") = (none : Option ℚ) ∧
      (1 : Nat) ∈ [1, 2] ∧ "parks_share" ∈ ["cafes_density", "parks_share"] ∧
      (pipelineWithFetch 2 [[some 5], [none, none]] (fun l => l.length) = none ∧
        (∃ row ∈ collectMetrics 2 (fun _ _ => [none, none]) [1, 2]
            ["cafes_density", "parks_share"],
          row.1 = 1 ∧ ("parks_share", (none : Option ℚ)) ∈ row.2) ∧
        (∀ c2 ∈ [1, 2], ∃ row ∈ collectMetrics 2 (fun _ _ => [none, none]) [1, 2]
            ["cafes_density", "parks_share"],
          row.1 = c2 ∧ ∀ k ∈ ["cafes_density", "parks_share"],
            (k, metricValue 2 (fun _ _ => [none, none]) c2 k) ∈ row.2)) :=
  ⟨⟨[none, none], by decide, rfl⟩, rfl, by decide, by decide,
    c7_retry_exhaustion 2 [[some 5], [none, none]] (fun l => l.length)
      (fun _ _ => [none, none]) [1, 2] ["cafes_density", "parks_share"] 1 "parks_share"
      ⟨[none, none], by decide, rfl⟩ rfl (by decide) (by decide)⟩

/-- C8: `parseRange` returns either `{min := none, max := none}` or two
defined values with `min ≤ max`; moreover its result is exactly the
swap-normalization of the first two parsed values, so two values arriving
in descending order are swapped. -/
theorem c8_parseRange_min_le_max (s : String) :
    (parseRange s = (none, none) ∨
      ∃ a b, parseRange s = (some a, some b) ∧ a ≤ b) ∧
    parseRange s =
      (match parseRangeVals s with
       | a :: b :: _ => if b < a then (some b, some a) else (some a, some b)
       | _ => (none, none)) := by
  constructor
  · by_cases h : (lexTokens (rangeNorm s)).length < 2
    · left
      simp [parseRange, h]
    · rcases hv : ((lexTokens (rangeNorm s)).filterMap parseToken).take 2 with
        _ | ⟨a, _ | ⟨b, rest⟩⟩
      · left
        simp [parseRange, h, hv]
      · left
        simp [parseRange, h, hv]
      · by_cases hba : b < a
        · right
          exact ⟨b, a, by simp [parseRange, h, hv, hba], Nat.le_of_lt hba⟩
        · right
          exact ⟨a, b, by simp [parseRange, h, hv, hba], Nat.le_of_not_lt hba⟩
  · by_cases h : (lexTokens (rangeNorm s)).length < 2
    · rcases hv : parseRangeVals s with _ | ⟨a, _ | ⟨b, rest⟩⟩
      · simp [parseRange, h, hv]
      · simp [parseRange, h, hv]
      · exfalso
        have h1 : (parseRangeVals s).length ≤
            ((lexTokens (rangeNorm s)).filterMap parseToken).length := by
          unfold parseRangeVals
          rw [List.length_take]
          omega
        have h2 : ((lexTokens (rangeNorm s)).filterMap parseToken).length ≤
            (lexTokens (rangeNorm s)).length := List.length_filterMap_le _ _
        rw [hv] at h1
        simp only [List.length_cons] at h1
        omega
    · simp only [parseRange, parseRangeVals, if_neg h]

/-- C9: `extractTagsFromText` returns only tag ids present in `allTags`
(in `ranked`, `top3` and `also`), with `top3` of length at most 3, `also`
of length at most 4, `ranked` listing the sorted entries (non-increasing
keyword score), and it is a pure function of its two arguments. -/
theorem c9_extractTags_shape (text text2 : String) (allTags allTags2 : List Tag)
    (h1 : text = text2) (h2 : allTags = allTags2) :
    (∀ tid ∈ (extractTagsFromText text allTags).ranked, tid ∈ allTags.map Tag.id) ∧
      (∀ tid ∈ (extractTagsFromText text allTags).top3, tid ∈ allTags.map Tag.id) ∧
      (∀ tid ∈ (extractTagsFromText text allTags).also, tid ∈ allTags.map Tag.id) ∧
      (extractTagsFromText text allTags).top3.length ≤ 3 ∧
      (extractTagsFromText text allTags).also.length ≤ 4 ∧
      List.Pairwise scoreGE (extractEntries text allTags) ∧
      (extractTagsFromText text allTags).ranked = (extractEntries text allTags).map Prod.fst ∧
      extractTagsFromText text allTags = extractTagsFromText text2 allTags2 := by
  subst h1
  subst h2
  have hentries : extractEntries text allTags =
      List.insertionSort scoreGE
        ((scoreText text).filter (fun x => (allTags.map Tag.id).contains x.1)) := by
    simp only [extractEntries]
  have hranked : (extractTagsFromText text allTags).ranked =
      (extractEntries text allTags).map Prod.fst := by
    simp only [extractTagsFromText]
  have htop3 : (extractTagsFromText text allTags).top3 =
      ((extractEntries text allTags).map Prod.fst).take 3 := by
    simp only [extractTagsFromText]
  have halso : (extractTagsFromText text allTags).also =
      (((extractEntries text allTags).map Prod.fst).drop 3).take 4 := by
    simp only [extractTagsFromText]
  have hmem0 : ∀ tid ∈ (extractEntries text allTags).map Prod.fst,
      tid ∈ allTags.map Tag.id := by
    intro tid htid
    obtain ⟨e, he, rfl⟩ := List.mem_map.mp htid
    rw [hentries] at he
    have hperm : List.Perm
        (List.insertionSort scoreGE
          ((scoreText text).filter (fun x => (allTags.map Tag.id).contains x.1)))
        ((scoreText text).filter (fun x => (allTags.map Tag.id).contains x.1)) :=
      List.perm_insertionSort scoreGE _
    have he2 : e ∈ (scoreText text).filter
        (fun x => (allTags.map Tag.id).contains x.1) := hperm.mem_iff.mp he
    have hpred := (List.mem_filter.mp he2).2
    simpa using hpred
  refine ⟨?_, ?_, ?_, ?_, ?_, ?_, hranked, rfl⟩
  · intro tid htid
    rw [hranked] at htid
    exact hmem0 tid htid
  · intro tid htid
    rw [htop3] at htid
    exact hmem0 tid (List.take_subset 3 _ htid)
  · intro tid htid
    rw [halso] at htid
    exact hmem0 tid (List.drop_subset 3 _ (List.take_subset 4 _ htid))
  · rw [htop3, List.length_take]
    omega
  · rw [halso, List.length_take]
    omega
  · rw [hentries]
    exact List.sorted_insertionSort scoreGE _

/-- Witness for C9 at a concrete text and tag list. -/
theorem c9_extractTags_shape_witness :
    (∀ tid ∈ (extractTagsFromText "quiet green parks and cafes"
        [⟨"green_parks", "Parks"⟩, ⟨"cafes_brunch", "Cafes"⟩]).ranked,
      tid ∈ ([⟨"green_parks", "Parks"⟩, ⟨"cafes_brunch", "Cafes"⟩] : List Tag).map Tag.id) ∧
      (∀ tid ∈ (extractTagsFromText "quiet green parks and cafes"
          [⟨"green_parks", "Parks"⟩, ⟨"cafes_brunch", "Cafes"⟩]).top3,
        tid ∈ ([⟨"green_parks", "Parks"⟩, ⟨"cafes_brunch", "Cafes"⟩] : List Tag).map Tag.id) ∧
      (∀ tid ∈ (extractTagsFromText "quiet green parks and cafes"
          [⟨"green_parks", "Parks"⟩, ⟨"cafes_brunch", "Cafes"⟩]).also,
        tid ∈ ([⟨"green_parks", "Parks"⟩, ⟨"cafes_brunch", "Cafes"⟩] : List Tag).map Tag.id) ∧
      (extractTagsFromText "quiet green parks and cafes"
        [⟨"green_parks", "Parks"⟩, ⟨"cafes_brunch", "Cafes"⟩]).top3.length ≤ 3 ∧
      (extractTagsFromText "quiet green parks and cafes"
        [⟨"green_parks", "Parks"⟩, ⟨"cafes_brunch", "Cafes"⟩]).also.length ≤ 4 ∧
      List.Pairwise scoreGE (extractEntries "quiet green parks and cafes"
        [⟨"green_parks", "Parks"⟩, ⟨"cafes_brunch", "Cafes"⟩]) ∧
      (extractTagsFromText "quiet green parks and cafes"
          [⟨"green_parks", "Parks"⟩, ⟨"cafes_brunch", "Cafes"⟩]).ranked =
        (extractEntries "quiet green parks and cafes"
          [⟨"green_parks", "Parks"⟩, ⟨"cafes_brunch", "Cafes"⟩]).map Prod.fst ∧
      extractTagsFromText "quiet green parks and cafes"
          [⟨"green_parks", "Parks"⟩, ⟨"cafes_brunch", "Cafes"⟩] =
        extractTagsFromText "quiet green parks and cafes"
          [⟨"green_parks", "Parks"⟩, ⟨"cafes_brunch", "Cafes"⟩] :=
  c9_extractTags_shape "quiet green parks and cafes" "quiet green parks and cafes"
    [⟨"green_parks", "Parks"⟩, ⟨"cafes_brunch", "Cafes"⟩]
    [⟨"green_parks", "Parks"⟩, ⟨"cafes_brunch", "Cafes"⟩] rfl rfl

end Reloc
